import Mathlib

/-!
Verification development for the "edit" extension module of a project
scaffolding tool (src/pyscaffold/extensions/edit.py).

The module renders an editable text document of command-line option
examples, and parses the edited document back into an argument list.
We embed the pure functions of that module (configuration resolution,
example rendering, and shell-style tokenisation) as executable Lean
definitions and prove the stated properties about them.

Python standard-library routines used by the module (shlex.split,
shlex.quote, textwrap.indent, textwrap.wrap, str.splitlines, str.strip)
are embedded faithfully below; textwrap.wrap is modelled by the greedy
fill algorithm without the long-word-breaking and hyphen-splitting
refinements (which no property here depends on).
-/

namespace Pyscaffold

/-- Whitespace characters recognised by Python str.strip and str.split. -/
def isPyWs (c : Char) : Bool :=
  c = ' ' || c = '\t' || c = '\n' || c = '\r' || c = '\u000b' || c = '\u000c'

/-- Model of Python str.strip on a character list. -/
def stripChars (cs : List Char) : List Char :=
  ((cs.dropWhile isPyWs).reverse.dropWhile isPyWs).reverse

/-- Model of Python str.strip (no arguments). -/
def pyStrip (s : String) : String :=
  String.mk (stripChars s.toList)

/-- Model of Python str.splitlines(keepends=False) on a character list,
restricted to the line terminators that occur in this module's data
(LF, CR, CRLF). -/
def charSplitlines : List Char → List (List Char)
  | [] => []
  | c :: rest =>
    if c = '\n' then [] :: charSplitlines rest
    else if c = '\r' then
      match rest with
      | c2 :: rest2 =>
        if c2 = '\n' then [] :: charSplitlines rest2
        else [] :: charSplitlines (c2 :: rest2)
      | [] => [[]]
    else
      match charSplitlines rest with
      | [] => [[c]]
      | l :: ls => (c :: l) :: ls

/-- Model of Python str.splitlines(keepends=True) on a character list. -/
def charSplitlinesKeep : List Char → List (List Char)
  | [] => []
  | c :: rest =>
    if c = '\n' then ['\n'] :: charSplitlinesKeep rest
    else if c = '\r' then
      match rest with
      | c2 :: rest2 =>
        if c2 = '\n' then ['\r', '\n'] :: charSplitlinesKeep rest2
        else ['\r'] :: charSplitlinesKeep (c2 :: rest2)
      | [] => [['\r']]
    else
      match charSplitlinesKeep rest with
      | [] => [[c]]
      | l :: ls => (c :: l) :: ls

/-- Model of Python str.splitlines(). -/
def pySplitlines (s : String) : List String :=
  (charSplitlines s.toList).map String.mk

/-- Model of Python str.splitlines(True). -/
def pySplitlinesKeep (s : String) : List String :=
  (charSplitlinesKeep s.toList).map String.mk

/-- Model of Python sep.join(list). -/
def sepJoin (sep : String) : List String → String
  | [] => ""
  | [x] => x
  | x :: xs => x ++ sep ++ sepJoin sep xs

/-- Model of os.linesep on the target (Linux) platform. -/
def osLinesep : String := "\n"

/-! ### Model of shlex.split (POSIX mode, whitespace_split, no comments)

shlex.split builds a shlex lexer with posix=True, whitespace_split=True
and commenters set to the empty string.  Its token loop is a character
state machine; we embed it directly. -/

/-- Whitespace recognised by the shlex lexer (its whitespace attribute). -/
def isShlexWs (c : Char) : Bool :=
  c = ' ' || c = '\t' || c = '\r' || c = '\n'

/-- States of the shlex POSIX lexer: between tokens, inside a word, inside
single quotes, inside double quotes, after a backslash outside quotes,
after a backslash inside double quotes. -/
inductive SMode where
  | ws
  | word
  | squote
  | dquote
  | escW
  | escD
deriving Repr, DecidableEq

/-- One-character-at-a-time embedding of shlex.read_token in POSIX mode
with whitespace_split.  The accumulator "tok" holds the current token's
characters in reverse; "quoted" records whether the current token saw a
quote (so that an empty quoted token is still emitted); "acc" holds the
finished tokens.  At end of input an unterminated quote raises
"No closing quotation" and a trailing escape raises "No escaped
character", as in CPython. -/
def shlexAux : List Char → SMode → List Char → Bool → List String →
    Except String (List String)
  | [], mode, tok, quoted, acc =>
    match mode with
    | .squote | .dquote => .error "No closing quotation"
    | .escW | .escD => .error "No escaped character"
    | _ =>
      if tok ≠ [] ∨ quoted then .ok (acc ++ [String.mk tok.reverse])
      else .ok acc
  | c :: rest, .ws, tok, quoted, acc =>
    if isShlexWs c then
      if tok ≠ [] ∨ quoted then
        shlexAux rest .ws [] false (acc ++ [String.mk tok.reverse])
      else shlexAux rest .ws tok quoted acc
    else if c = '\\' then shlexAux rest .escW tok quoted acc
    else if c = '\'' then shlexAux rest .squote tok quoted acc
    else if c = '"' then shlexAux rest .dquote tok quoted acc
    else shlexAux rest .word (c :: tok) quoted acc
  | c :: rest, .word, tok, quoted, acc =>
    if isShlexWs c then
      if tok ≠ [] ∨ quoted then
        shlexAux rest .ws [] false (acc ++ [String.mk tok.reverse])
      else shlexAux rest .ws tok quoted acc
    else if c = '\'' then shlexAux rest .squote tok quoted acc
    else if c = '"' then shlexAux rest .dquote tok quoted acc
    else if c = '\\' then shlexAux rest .escW tok quoted acc
    else shlexAux rest .word (c :: tok) quoted acc
  | c :: rest, .squote, tok, _, acc =>
    if c = '\'' then shlexAux rest .word tok true acc
    else shlexAux rest .squote (c :: tok) true acc
  | c :: rest, .dquote, tok, _, acc =>
    if c = '"' then shlexAux rest .word tok true acc
    else if c = '\\' then shlexAux rest .escD tok true acc
    else shlexAux rest .dquote (c :: tok) true acc
  | c :: rest, .escW, tok, quoted, acc =>
    shlexAux rest .word (c :: tok) quoted acc
  | c :: rest, .escD, tok, quoted, acc =>
    if c = '\\' ∨ c = '"' then shlexAux rest .dquote (c :: tok) quoted acc
    else shlexAux rest .dquote (c :: '\\' :: tok) quoted acc

/-- Model of shlex.split. -/
def shlex_split (s : String) : Except String (List String) :=
  shlexAux s.toList .ws [] false []

/-- Characters the shlex.quote regular expression treats as safe
(ASCII alphanumerics and the characters underscore at-sign percent plus
equals colon comma dot slash dash). -/
def shlexSafeChar (c : Char) : Bool :=
  c.isAlphanum || c = '_' || c = '@' || c = '%' || c = '+' || c = '=' ||
    c = ':' || c = ',' || c = '.' || c = '/' || c = '-'

/-- Replace every occurrence of a character by a character list. -/
def replaceChar (cs : List Char) (t : Char) (r : List Char) : List Char :=
  cs.flatMap (fun c => if c = t then r else [c])

/-- Model of shlex.quote. -/
def shlex_quote (s : String) : String :=
  if s = "" then "''"
  else if s.toList.all shlexSafeChar then s
  else "'" ++ String.mk (replaceChar s.toList '\'' "'\"'\"'".toList) ++ "'"

/-! ### Data model

Option descriptors, resolved option values and extension objects are
supplied by external collaborators (argparse and the extension entry
points).  We embed exactly the attributes the module reads. -/

/-- An installed extension object, with the two dynamically looked-up
attributes this module reads: an optional canonical flag and an optional
on_edit declaration (a dictionary from kind to flag list). -/
structure Ext where
  flag : Option String
  onEdit : Option (List (String × List String))
deriving Repr, DecidableEq

/-- The nargs attribute of an argparse action: None, an integer count, or
a symbolic string such as "*". -/
inductive PyNArgs where
  | noneV
  | num (n : Int)
  | sym (s : String)
deriving Repr, DecidableEq

/-- An argparse action (option descriptor): registered flag spellings,
destination key, arity and help text.  These are the attributes the
module reads. -/
structure Action where
  option_strings : List String
  dest : String
  nargs : PyNArgs
  help : Option String
deriving Repr

/-- A resolved option value.  Python values are dynamically typed; the
constructors cover the shapes this module inspects (strings, booleans,
integers, lists or tuples, extension objects, and None).  A tuple is
modelled as vlist, which is adequate because the module only asks
isinstance(arg, (list, tuple)) and iterates. -/
inductive Value where
  | vstr (s : String)
  | vbool (b : Bool)
  | vint (n : Int)
  | vlist (l : List Value)
  | vext (e : Ext)
  | vnone
deriving Repr

/-- The argument parser, reduced to the one capability the module uses:
a formatter rendering an action's placeholder or metavar syntax
(parser still carries the formatter machinery externally; here the
composite call to the formatter is a function field). -/
structure Parser where
  format_args : Action → String → String

/-- Resolved options: a mapping from destination key to current value,
modelled as an association list with distinct keys (a Python dict). -/
def Opts := List (String × Value)

/-- Model of opts.get(key): the stored value, or None when absent.
A stored Python None and an absent key behave identically in this
module (both fail truthiness tests and the arg-is-None test). -/
def getOpt (opts : Opts) (key : String) : Value :=
  (opts.lookup key).getD Value.vnone

/-- Python truthiness of the values this module tests. -/
def truthy : Value → Bool
  | .vstr s => s ≠ ""
  | .vbool b => b
  | .vint n => n ≠ 0
  | .vlist l => ¬l.isEmpty
  | .vext _ => true
  | .vnone => false

/-- Test for the Python expression arg is None. -/
def isNoneV : Value → Bool
  | .vnone => true
  | _ => false

/-- Approximation of repr for atoms occurring inside rendered lists;
nested lists do not occur in resolved options and are abbreviated. -/
def pyReprAtom : Value → String
  | .vstr s => "'" ++ s ++ "'"
  | .vbool b => if b then "True" else "False"
  | .vint n => toString n
  | .vnone => "None"
  | .vlist _ => "[...]"
  | .vext _ => "<Extension>"

/-- Model of Python str(value) (the f-string conversion f"{a}") for the
value shapes above. -/
def pyStr : Value → String
  | .vstr s => s
  | .vbool b => if b then "True" else "False"
  | .vint n => toString n
  | .vnone => "None"
  | .vlist l => "[" ++ sepJoin ", " (l.map pyReprAtom) ++ "]"
  | .vext _ => "<Extension>"

/-! ### Model of the textwrap routines used -/

/-- Model of Python str.split() with no separator: split on whitespace
runs, dropping empty pieces. -/
def pyWordsAux : List Char → List Char → List String
  | [], [] => []
  | [], acc => [String.mk acc.reverse]
  | c :: rest, acc =>
    if isPyWs c then
      match acc with
      | [] => pyWordsAux rest []
      | _ => String.mk acc.reverse :: pyWordsAux rest []
    else pyWordsAux rest (c :: acc)

/-- Words of a string, in Python str.split() fashion. -/
def pyWords (s : String) : List String :=
  pyWordsAux s.toList []

/-- Greedy line filling at a given width (the core of textwrap.wrap). -/
def fillAux (width : Nat) : List String → String → List String
  | [], cur => if cur = "" then [] else [cur]
  | w :: ws, cur =>
    if cur = "" then fillAux width ws w
    else if cur.length + 1 + w.length ≤ width then
      fillAux width ws (cur ++ " " ++ w)
    else cur :: fillAux width ws w

/-- Model of textwrap.wrap(text, width) with default options: normalise
whitespace, then fill greedily.  Long-word breaking and hyphen-aware
splitting are not modelled (no property below depends on them). -/
def textwrap_wrap (s : String) (width : Nat) : List String :=
  fillAux width (pyWords s) ""

/-- Model of textwrap.indent(text, pre): each line of
splitlines(keepends=True) that does not consist solely of whitespace is
prefixed with pre. -/
def pyIndent (text pre : String) : String :=
  String.join ((pySplitlinesKeep text).map
    (fun line => if pyStrip line ≠ "" then pre ++ line else line))

/-! ### Embedding of the module's own helpers (edit.py) -/

/-- Indentation used for the auxiliary commented lines (INDENT_LEVEL). -/
def INDENT_LEVEL : Nat := 4

/-- Embedding of wrap: join the wrapped lines of the help text (or of
the empty string when the help is None) with the platform line
separator. -/
def wrap (text : Option String) (width : Nat := 70) : String :=
  sepJoin osLinesep (textwrap_wrap (text.getD "") width)

/-- Embedding of comment: indent the text with spaces followed by the
comment mark and a space. -/
def comment (text : String) (comment_mark : String := "#")
    (indent_level : Nat := 0) : String :=
  pyIndent text (String.mk (List.replicate indent_level ' ') ++ comment_mark ++ " ")

/-- Embedding of join_block: join the non-empty parts with the
separator (Python sep.join(p for p in parts if p)). -/
def join_block (parts : List String) (sep : String := osLinesep) : String :=
  sepJoin sep (parts.filter (fun p => p ≠ ""))

/-! ### Embedding of the suppression configuration (CONFIG, get_config)

iterate_entry_points enumerates the installed extensions and is an
external collaborator; it is modelled as an explicit list parameter
(exts) threaded through the functions that consult the configuration. -/

/-- Embedding of the static CONFIG dictionary.  Looking up a key other
than "ignore" or "comment" cannot happen in the module (get_config
asserts the key first); such lookups are modelled as the empty list. -/
def CONFIG (kind : String) : List String :=
  if kind = "ignore" then ["--help", "--version"]
  else if kind = "comment" then ["--verbose", "--very-verbose"]
  else []

/-- Contribution of one extension to one configuration kind: the on_edit
attribute when present (getattr default: empty contributions), then the
requested kind when declared (dict.get default: empty list). -/
def contribution (ext : Ext) (kind : String) : List String :=
  match ext.onEdit with
  | none => []
  | some d => (d.lookup kind).getD []

/-- The set reduce(_reducer, iterate_entry_points(), initial_value)
computes inside get_config: the static base set unioned with every
extension's contribution. -/
def configSet (exts : List Ext) (kind : String) : Finset String :=
  exts.foldl (fun acc e => acc ∪ (contribution e kind).toFinset)
    (CONFIG kind).toFinset

/-- Embedding of get_config.  The leading assert kind in CONFIG.keys()
is modelled by returning none (an AssertionError) for any other kind. -/
def get_config (exts : List Ext) (kind : String) : Option (Finset String) :=
  if kind = "ignore" ∨ kind = "comment" then some (configSet exts kind)
  else none

/-! ### Embedding of the example renderer -/

/-- Embedding of long_option: the last element of the option strings
sorted by length with a stable sort (Python sorted(key=len)), with
[""] substituted when the list is empty (option_strings or [""]). -/
def insertByLen (x : String) : List String → List String
  | [] => [x]
  | y :: ys =>
    if x.length ≤ y.length then x :: y :: ys else y :: insertByLen x ys

/-- Stable sort of strings by increasing length (insertion sort; ties
keep their original order, as with Python sorted(key=len)). -/
def sortByLen (l : List String) : List String :=
  l.foldr insertByLen []

/-- Embedding of long_option. -/
def long_option (action : Action) : String :=
  (sortByLen (if action.option_strings.isEmpty then [""]
              else action.option_strings)).getLastD ""

/-- Embedding of alternative_flags: all spellings but the longest,
shortest first, or the empty string when there are none. -/
def alternative_flags (action : Action) : String :=
  let opts := (sortByLen action.option_strings).dropLast
  if opts.isEmpty then ""
  else "(or alternatively: " ++ sepJoin " " opts ++ ")"

/-- The flags of the currently active extensions: opts.get("extensions",
[]) iterated, reading the optional flag attribute of each element.
A non-list value stored under "extensions" would be a type error in
Python and does not occur; it is modelled as the empty list. -/
def extensionList (opts : Opts) : List Value :=
  match getOpt opts "extensions" with
  | .vlist l => l
  | _ => []

/-- Read the optional flag attribute of every active extension object
(getattr(ext, "flag", None) for each element). -/
def extensionFlags (opts : Opts) : List (Option String) :=
  (extensionList opts).map
    (fun v => match v with | .vext e => e.flag | _ => none)

/-- Embedding of has_active_extension: some registered spelling of the
action occurs among the active extensions' flags. -/
def has_active_extension (action : Action) (opts : Opts) : Bool :=
  action.option_strings.any (fun f => (extensionFlags opts).contains (some f))

/-- Embedding of example_no_value.  The Python condition is
(long not in get_config("comment") and (action.dest != "extensions" and
opts.get(action.dest))) or has_active_extension(action, opts), with
Python's and/or precedence. -/
def example_no_value (exts : List Ext) (_p : Parser) (action : Action)
    (opts : Opts) : String :=
  let long := long_option action
  if (!decide (long ∈ configSet exts "comment") &&
        (action.dest ≠ "extensions" && truthy (getOpt opts action.dest))) ||
      has_active_extension action opts then
    " " ++ long
  else
    comment long

/-- Normalisation of a looked-up value to an argument list:
arg if isinstance(arg, (list, tuple)) else [arg]. -/
def value_args : Value → List Value
  | .vlist l => l
  | v => [v]

/-- The joined shell-quoted rendering of a value, stripped:
" ".join(shlex.quote(f"{a}") for a in args).strip(). -/
def quoted_value (arg : Value) : String :=
  pyStrip (sepJoin " " ((value_args arg).map (fun a => shlex_quote (pyStr a))))

/-- Embedding of example_with_value: normalise the looked-up value to a
list, shell-quote and join; produce the commented placeholder form when
the value is None, the long flag is in the comment set, or the joined
value is empty, and the active form otherwise. -/
def example_with_value (exts : List Ext) (parser : Parser) (action : Action)
    (opts : Opts) : String :=
  let long := long_option action
  let arg := getOpt opts action.dest
  let value := quoted_value arg
  if isNoneV arg || decide (long ∈ configSet exts "comment") || value = "" then
    comment (pyStrip (long ++ " " ++ parser.format_args action action.dest))
  else
    " " ++ long ++ " " ++ value

/-- Embedding of example (renamed: example is a Lean keyword): dispatch
on arity, example_no_value when nargs == 0, example_with_value
otherwise. -/
def render_example (exts : List Ext) (parser : Parser) (action : Action)
    (opts : Opts) : String :=
  if action.nargs = PyNArgs.num 0 then example_no_value exts parser action opts
  else example_with_value exts parser action opts

/-- Embedding of example_with_help: the example line, the commented
alternative spellings and the commented wrapped help text, joined with
line separators, empty segments dropped. -/
def example_with_help (exts : List Ext) (parser : Parser) (action : Action)
    (opts : Opts) : String :=
  join_block
    [render_example exts parser action opts,
     comment (alternative_flags action) "#" INDENT_LEVEL,
     comment (wrap action.help) "#" INDENT_LEVEL]

/-- Embedding of all_examples: drop the actions whose long option is in
the ignore set, render each remaining one with example_with_help, and
join the blocks with three line separators. -/
def all_examples (exts : List Ext) (parser : Parser) (actions : List Action)
    (opts : Opts) : String :=
  join_block
    ((actions.filter
        (fun a => !decide (long_option a ∈ configSet exts "ignore"))).map
      (fun a => example_with_help exts parser a opts))
    (osLinesep ++ osLinesep ++ osLinesep)

/-! ### Embedding of split_args -/

/-- The lines split_args keeps: every physical line stripped, dropping
those that are empty or start with the comment mark. -/
def kept_lines (text : String) : List String :=
  ((pySplitlines text).map pyStrip).filter
    (fun x => x ≠ "" && x.toList.head? ≠ some '#')

/-- Tokenise a list of lines with shlex_split, propagating the first
error (Python raises at the first malformed line while the generator is
consumed; no partial result is produced). -/
def tokenize_lines : List String → Except String (List (List String))
  | [] => .ok []
  | l :: ls =>
    match shlex_split l with
    | .error e => .error e
    | .ok ts => (tokenize_lines ls).map (fun rest => ts :: rest)

/-- Embedding of split_args: strip and filter the physical lines, shell
tokenise each kept line, and flatten the tokens in order. -/
def split_args (text : String) : Except String (List String) :=
  (tokenize_lines (kept_lines text)).map List.flatten

/-- Whether an Except value is an error. -/
def isErr {α : Type} : Except String α → Bool
  | .error _ => true
  | .ok _ => false

/-! ### Helper lemmas -/

/-- Membership in the folded configuration set: the base entries plus
any extension's contribution. -/
theorem mem_configSet (exts : List Ext) (kind x : String) :
    x ∈ configSet exts kind ↔
      x ∈ CONFIG kind ∨ ∃ e ∈ exts, x ∈ contribution e kind := by
  have main : ∀ (l : List Ext) (init : Finset String),
      x ∈ l.foldl (fun acc e => acc ∪ (contribution e kind).toFinset) init ↔
        x ∈ init ∨ ∃ e ∈ l, x ∈ contribution e kind := by
    intro l
    induction l with
    | nil => simp
    | cons e l ih =>
      intro init
      simp only [List.foldl_cons, ih, Finset.mem_union, List.mem_toFinset,
        List.mem_cons]
      constructor
      · rintro ((h | h) | ⟨e', he', hx⟩)
        · exact Or.inl h
        · exact Or.inr ⟨e, Or.inl rfl, h⟩
        · exact Or.inr ⟨e', Or.inr he', hx⟩
      · rintro (h | ⟨e', (rfl | he'), hx⟩)
        · exact Or.inl (Or.inl h)
        · exact Or.inl (Or.inr hx)
        · exact Or.inr ⟨e', he', hx⟩
  rw [configSet, main, List.mem_toFinset]

/-- A string with nonempty left part is nonempty when appended. -/
theorem append_ne_empty_left (a b : String) (ha : a ≠ "") : a ++ b ≠ "" := by
  intro h
  apply ha
  have hd : (a ++ b).data = a.data ++ b.data := rfl
  rw [h] at hd
  have : a.data = [] := (List.append_eq_nil.mp hd.symm).1
  exact String.ext this

/-- The join of a list of nonempty strings is empty only for the empty
list. -/
theorem sepJoin_ne_empty (sep : String) (xs : List String)
    (h : ∀ x ∈ xs, x ≠ "") (hne : xs ≠ []) : sepJoin sep xs ≠ "" := by
  match xs with
  | [] => exact absurd rfl hne
  | [x] => simpa [sepJoin] using h x (List.mem_singleton.mpr rfl)
  | x :: y :: ys =>
    show x ++ sep ++ sepJoin sep (y :: ys) ≠ ""
    exact append_ne_empty_left _ _
      (append_ne_empty_left _ _ (h x (List.mem_cons_self x _)))

/-- The one-step characterisation of join_block: empty parts are
dropped, and nonempty parts are separated by the separator. -/
theorem join_block_cons (x : String) (xs : List String) (sep : String) :
    join_block (x :: xs) sep =
      (if x = "" then join_block xs sep
       else if join_block xs sep = "" then x
       else x ++ sep ++ join_block xs sep) := by
  by_cases hx : x = ""
  · simp [join_block, hx]
  · rw [if_neg hx]
    unfold join_block
    rw [List.filter_cons_of_pos (by simpa using hx)]
    cases hfil : xs.filter (fun p => p ≠ "") with
    | nil => simp [hfil, sepJoin]
    | cons y ys =>
      have hne : sepJoin sep (y :: ys) ≠ "" := by
        apply sepJoin_ne_empty
        · intro z hz
          have := List.of_mem_filter (hfil ▸ hz)
          simpa using this
        · simp
      rw [if_neg hne]
      rfl

/-- join_block of a single part is that part. -/
theorem join_block_singleton (x : String) (sep : String) :
    join_block [x] sep = x := by
  by_cases hx : x = "" <;> simp [join_block, hx, sepJoin]

/-- When every physical line strips to the empty string or to a line
starting with the comment mark, no line is kept. -/
theorem kept_lines_eq_nil {t : String}
    (h : ∀ l ∈ pySplitlines t,
      pyStrip l = "" ∨ (pyStrip l).toList.head? = some '#') :
    kept_lines t = [] := by
  unfold kept_lines
  rw [List.filter_eq_nil_iff]
  intro x hx
  rcases List.mem_map.mp hx with ⟨l, hl, rfl⟩
  rcases h l hl with h1 | h1
  · simp [h1]
  · have h1' : (pyStrip l).data.head? = some '#' := h1
    simp [h1']

/-- Mapping over an Except value preserves its error status. -/
theorem isErr_map {α β : Type} (f : α → β) (e : Except String α) :
    isErr (Except.map f e) = isErr e := by
  cases e <;> rfl

/-- If any line fails shell tokenisation, tokenising the line list is an
error (no partial token list is produced). -/
theorem tokenize_lines_isErr {ls : List String}
    (h : ∃ l ∈ ls, isErr (shlex_split l) = true) :
    isErr (tokenize_lines ls) = true := by
  induction ls with
  | nil => simp at h
  | cons l ls ih =>
    rcases h with ⟨l', hl', herr⟩
    rcases List.mem_cons.mp hl' with rfl | hmem
    · cases hs : shlex_split l' with
      | error e => simp [tokenize_lines, hs, isErr]
      | ok ts => rw [hs] at herr; simp [isErr] at herr
    · cases hs : shlex_split l with
      | error e => simp [tokenize_lines, hs, isErr]
      | ok ts =>
        have := ih ⟨l', hmem, herr⟩
        simp [tokenize_lines, hs, isErr_map, this]

/-- Splitting a character list at an inserted line feed, when the first
part contains no line terminator. -/
theorem charSplitlines_append (cs rest : List Char)
    (h : ∀ c ∈ cs, c ≠ '\n' ∧ c ≠ '\r') :
    charSplitlines (cs ++ '\n' :: rest) = cs :: charSplitlines rest := by
  induction cs with
  | nil =>
    rw [List.nil_append, charSplitlines.eq_def]
    rfl
  | cons c cs ih =>
    have hc := h c (List.mem_cons_self c cs)
    have hcs : ∀ x ∈ cs, x ≠ '\n' ∧ x ≠ '\r' :=
      fun x hx => h x (List.mem_cons_of_mem c hx)
    rw [List.cons_append, charSplitlines.eq_def]
    simp only [hc.1, hc.2, if_false, ih hcs]

/-- Splitting a string with an inserted line feed, when the first part
contains no line terminator. -/
theorem pySplitlines_insert (line text : String)
    (h : ∀ c ∈ line.toList, c ≠ '\n' ∧ c ≠ '\r') :
    pySplitlines (line ++ "\n" ++ text) = line :: pySplitlines text := by
  unfold pySplitlines
  have hdata : (line ++ "\n" ++ text).toList
      = line.toList ++ '\n' :: text.toList := by
    show (line.data ++ '\n' :: []) ++ text.data = line.data ++ '\n' :: text.data
    simp
  rw [hdata, charSplitlines_append _ _ h]
  rfl

/-- Inserting a blank or comment physical line in front of a document
does not change the parsed arguments. -/
theorem split_args_insert_comment (line text : String)
    (hnl : ∀ c ∈ line.toList, c ≠ '\n' ∧ c ≠ '\r')
    (hcm : pyStrip line = "" ∨ (pyStrip line).toList.head? = some '#') :
    split_args (line ++ "\n" ++ text) = split_args text := by
  unfold split_args kept_lines
  rw [pySplitlines_insert line text hnl, List.map_cons]
  rcases hcm with h | h
  · rw [List.filter_cons_of_neg (by simp [h])]
  · have h' : (pyStrip line).data.head? = some '#' := h
    rw [List.filter_cons_of_neg (by simp [h'])]

/-! ### Concrete fixtures used by the witnesses and counterexamples -/

/-- A parser whose formatter renders the placeholder "X". -/
def fmtParser : Parser := ⟨fun _ _ => "X"⟩

/-- The verbosity flag descriptor (zero arity, in the static commented
set). -/
def actVerbose : Action := ⟨["-v", "--verbose"], "verbose", .num 0, some "show more info"⟩

/-- Resolved options where the verbosity destination is True. -/
def optsVerboseOn : Opts := [("verbose", Value.vbool true)]

/-- Resolved options where the verbosity destination is True and an
active extension carries the flag "--verbose". -/
def optsVerboseExt : Opts :=
  [("verbose", Value.vbool true),
   ("extensions", Value.vlist [Value.vext ⟨some "--verbose", none⟩])]

/-- A zero-arity descriptor whose destination is the special key
"extensions". -/
def actFooExt : Action := ⟨["--foo"], "extensions", .num 0, none⟩

/-- Resolved options with one active extension whose flag is not a
spelling of actFooExt. -/
def optsOtherExt : Opts :=
  [("extensions", Value.vlist [Value.vext ⟨some "--bar", none⟩])]

/-- A value-taking descriptor with destination "x". -/
def actX : Action := ⟨["--x"], "x", .noneV, none⟩

/-- Resolved options where the value of "x" is the empty string. -/
def optsXEmpty : Opts := [("x", Value.vstr "")]

/-- The name descriptor with a short alternative spelling. -/
def actName : Action := ⟨["-n", "--name"], "name", .noneV, some "project name"⟩

/-- The license descriptor. -/
def actLicense : Action := ⟨["--license"], "license", .noneV, some "license id"⟩

/-- Resolved options carrying a project name and a license. -/
def optsRoundtrip : Opts :=
  [("name", Value.vstr "myproj"), ("license", Value.vstr "MIT")]

/-- The help descriptor (its long spelling is in the static ignored
set). -/
def actHelp : Action := ⟨["-h", "--help"], "help", .num 0, some "show this help message and exit"⟩

/-- A zero-arity descriptor with a truthy destination, not commented. -/
def actFlag1 : Action := ⟨["--flag1"], "flag1", .num 0, none⟩

/-- Resolved options where flag1 is True. -/
def optsFlag1 : Opts := [("flag1", Value.vbool true)]

/-- A descriptor with no registered flag spellings. -/
def actEmptyFlags : Action := ⟨[], "z", .num 0, none⟩

/-- Two installed extensions: one contributing its own flag to the
commented set, one without an on_edit declaration. -/
def extsC7 : List Ext := [⟨some "--a", some [("comment", ["--a"])]⟩, ⟨none, none⟩]

/-! ### Claims -/

/-- C1, counterexample: the descriptor "--verbose" is in the commented
set, yet when an active extension carries the flag "--verbose" the
renderer produces the active form " --verbose", not the commented form.
The claim as stated (commented set forces the commented form regardless
of whether the flag corresponds to a currently-active extension) is
therefore false. -/
theorem spec_c1_counterexample :
    long_option actVerbose ∈ configSet [] "comment"
    ∧ truthy (getOpt optsVerboseExt "verbose") = true
    ∧ example_no_value [] fmtParser actVerbose optsVerboseExt = " --verbose"
    ∧ example_no_value [] fmtParser actVerbose optsVerboseExt
        ≠ comment (long_option actVerbose) := by
  refine ⟨by decide, by decide, by decide, by decide⟩

/-- C1 (amended): for every zero-arity descriptor whose canonical
spelling is in the commented set, example_no_value produces the
commented form regardless of the resolved value of its destination,
provided the flag does not correspond to a currently-active
extension. -/
theorem spec_c1_commented_set_forces_comment (exts : List Ext)
    (parser : Parser) (action : Action) (opts : Opts)
    (hmem : long_option action ∈ configSet exts "comment")
    (hext : has_active_extension action opts = false) :
    example_no_value exts parser action opts = comment (long_option action) := by
  unfold example_no_value
  simp [hmem, hext]

/-- C1, witness: the commented "--verbose" descriptor with resolved
value True and no active extension renders as the commented form. -/
theorem spec_c1_witness :
    long_option actVerbose ∈ configSet [] "comment"
    ∧ has_active_extension actVerbose optsVerboseOn = false
    ∧ example_no_value [] fmtParser actVerbose optsVerboseOn
        = comment (long_option actVerbose) :=
  ⟨by decide, by decide,
    spec_c1_commented_set_forces_comment [] fmtParser actVerbose optsVerboseOn
      (by decide) (by decide)⟩

/-- C2, counterexample: a zero-arity descriptor whose destination is
the special key "extensions" holds a truthy value and its spelling is
not in the commented set, yet the renderer produces the commented form,
not the active form.  The claim as stated is therefore false. -/
theorem spec_c2_counterexample :
    truthy (getOpt optsOtherExt "extensions") = true
    ∧ long_option actFooExt ∉ configSet [] "comment"
    ∧ example_no_value [] fmtParser actFooExt optsOtherExt
        = comment (long_option actFooExt)
    ∧ example_no_value [] fmtParser actFooExt optsOtherExt
        ≠ " " ++ long_option actFooExt := by
  refine ⟨by decide, by decide, by decide, by decide⟩

/-- C2 (amended): for every zero-arity descriptor whose destination key
is not the special key "extensions" and holds a truthy value, and whose
canonical spelling is not in the commented set, example_no_value
returns the active form, a space followed by the canonical long
spelling. -/
theorem spec_c2_truthy_renders_active (exts : List Ext) (parser : Parser)
    (action : Action) (opts : Opts)
    (ht : truthy (getOpt opts action.dest) = true)
    (hd : action.dest ≠ "extensions")
    (hc : long_option action ∉ configSet exts "comment") :
    example_no_value exts parser action opts = " " ++ long_option action := by
  unfold example_no_value
  simp [ht, hd, hc]

/-- C2, witness: a truthy, uncommented, zero-arity flag renders in the
active form. -/
theorem spec_c2_witness :
    truthy (getOpt optsFlag1 "flag1") = true
    ∧ long_option actFlag1 ∉ configSet [] "comment"
    ∧ example_no_value [] fmtParser actFlag1 optsFlag1
        = " " ++ long_option actFlag1 :=
  ⟨by decide, by decide,
    spec_c2_truthy_renders_active [] fmtParser actFlag1 optsFlag1
      (by decide) (by decide) (by decide)⟩

/-- C3, counterexample: a value-taking descriptor whose current value is
the empty string is rendered in the active form " --x ''" with a quoted
literal value, not in the commented placeholder form.  The claim's
clause that an empty value always yields a commented placeholder line
is therefore false. -/
theorem spec_c3_counterexample :
    getOpt optsXEmpty "x" = Value.vstr ""
    ∧ example_with_value [] fmtParser actX optsXEmpty = " --x ''"
    ∧ example_with_value [] fmtParser actX optsXEmpty
        ≠ comment (pyStrip (long_option actX ++ " "
            ++ fmtParser.format_args actX actX.dest)) := by
  refine ⟨rfl, by decide, by decide⟩

/-- C3 (amended): example_with_value produces the commented placeholder
line, containing the canonical flag and the formatter-derived
placeholder and no literal value, exactly when the value is absent, the
flag is in the commented set, or the shell-quoted joined value is empty
(in particular for an absent value or an empty list/tuple value); the
active form " --flag value..." is produced exactly when the value is
present, the flag is not commented, and the joined value is non-empty.
An empty-string scalar value quotes to the non-empty text "''" and is
rendered active. -/
theorem spec_c3_value_option_cases (exts : List Ext) (parser : Parser)
    (action : Action) (opts : Opts) :
    (isNoneV (getOpt opts action.dest) = true
        ∨ long_option action ∈ configSet exts "comment"
        ∨ quoted_value (getOpt opts action.dest) = "" →
      example_with_value exts parser action opts
        = comment (pyStrip (long_option action ++ " "
            ++ parser.format_args action action.dest)))
    ∧ (isNoneV (getOpt opts action.dest) = false →
        long_option action ∉ configSet exts "comment" →
        quoted_value (getOpt opts action.dest) ≠ "" →
        example_with_value exts parser action opts
          = " " ++ long_option action ++ " "
              ++ quoted_value (getOpt opts action.dest))
    ∧ quoted_value (Value.vlist []) = ""
    ∧ isNoneV Value.vnone = true := by
  refine ⟨?_, ?_, rfl, rfl⟩
  · intro h
    unfold example_with_value
    rcases h with h | h | h <;> simp [h]
  · intro h1 h2 h3
    unfold example_with_value
    simp [h1, h2, h3]

/-- C3, witness: an absent value yields the commented placeholder form,
and a present scalar value yields the active form. -/
theorem spec_c3_witness :
    example_with_value [] fmtParser actX []
      = comment (pyStrip (long_option actX ++ " "
          ++ fmtParser.format_args actX actX.dest))
    ∧ example_with_value [] fmtParser actLicense optsRoundtrip
        = " " ++ long_option actLicense ++ " "
            ++ quoted_value (getOpt optsRoundtrip actLicense.dest) :=
  ⟨(spec_c3_value_option_cases [] fmtParser actX []).1 (Or.inl (by decide)),
   (spec_c3_value_option_cases [] fmtParser actLicense optsRoundtrip).2.1
     (by decide) (by decide) (by decide)⟩

/-- C7: get_config returns the union of the static base entries with
every installed extension's contribution; an extension without an
on_edit attribute, or whose declaration lacks the requested kind,
contributes nothing. (In this pure embedding repeated applications are
definitionally identical, which subsumes the memoisation clause.) -/
theorem spec_c7_config_union (exts : List Ext) (kind : String) (x : String)
    (hk : kind = "ignore" ∨ kind = "comment") :
    (∃ s, get_config exts kind = some s ∧
        (x ∈ s ↔ x ∈ CONFIG kind ∨ ∃ e ∈ exts, x ∈ contribution e kind))
    ∧ (∀ e : Ext, e.onEdit = none → contribution e kind = [])
    ∧ (∀ (e : Ext) (d : List (String × List String)),
        e.onEdit = some d → d.lookup kind = none → contribution e kind = []) := by
  refine ⟨⟨configSet exts kind, ?_, mem_configSet exts kind x⟩, ?_, ?_⟩
  · unfold get_config
    rw [if_pos hk]
  · intro e he
    simp [contribution, he]
  · intro e d he hd
    simp [contribution, he, hd]

/-- C7, witness: with one extension contributing "--a" to the commented
set and one extension lacking the declaration, get_config "comment"
contains "--a". -/
theorem spec_c7_witness :
    (∃ s, get_config extsC7 "comment" = some s ∧
        ("--a" ∈ s ↔ "--a" ∈ CONFIG "comment"
          ∨ ∃ e ∈ extsC7, "--a" ∈ contribution e "comment"))
    ∧ (∀ e : Ext, e.onEdit = none → contribution e "comment" = [])
    ∧ (∀ (e : Ext) (d : List (String × List String)),
        e.onEdit = some d → d.lookup "comment" = none →
          contribution e "comment" = []) :=
  spec_c7_config_union extsC7 "comment" "--a" (Or.inr rfl)

/-- C9: get_config applied to a kind other than "ignore" or "comment"
fails the assertion (modelled as none), and under the precondition that
the kind is one of the two it returns a set. -/
theorem spec_c9_get_config_kind_guard (exts : List Ext) (kind : String) :
    (kind ≠ "ignore" → kind ≠ "comment" → get_config exts kind = none)
    ∧ (kind = "ignore" ∨ kind = "comment" →
        (get_config exts kind).isSome = true) := by
  constructor
  · intro h1 h2
    unfold get_config
    rw [if_neg]
    rintro (h | h)
    · exact h1 h
    · exact h2 h
  · intro h
    unfold get_config
    rw [if_pos h]
    rfl

/-- C9, witness: the kind "bogus" fails the assertion and the kind
"ignore" yields a set. -/
theorem spec_c9_witness :
    get_config [] "bogus" = none ∧ (get_config [] "ignore").isSome = true :=
  ⟨(spec_c9_get_config_kind_guard [] "bogus").1 (by decide) (by decide),
   (spec_c9_get_config_kind_guard [] "ignore").2 (Or.inl rfl)⟩

/-- C10: a descriptor with no registered flag spellings is handled
gracefully: long_option returns the empty string, alternative_flags
returns the empty string, and (when the empty string is not in the
ignored set) the descriptor still contributes its example block to the
rendered document. -/
theorem spec_c10_empty_option_strings (exts : List Ext) (parser : Parser)
    (action : Action) (opts : Opts) (h : action.option_strings = []) :
    long_option action = "" ∧ alternative_flags action = ""
    ∧ ("" ∉ configSet exts "ignore" →
        all_examples exts parser [action] opts
          = example_with_help exts parser action opts) := by
  have hl : long_option action = "" := by
    simp [long_option, h, sortByLen, insertByLen]
  refine ⟨hl, ?_, ?_⟩
  · simp [alternative_flags, h, sortByLen]
  · intro hi
    unfold all_examples
    have hfil : List.filter
        (fun a => !decide (long_option a ∈ configSet exts "ignore")) [action]
        = [action] := by
      rw [List.filter_cons_of_pos (by simp [hl, hi])]
      rfl
    rw [hfil, List.map_cons, List.map_nil, join_block_singleton]

/-- C10, witness: the flagless descriptor evaluates as stated. -/
theorem spec_c10_witness :
    long_option actEmptyFlags = "" ∧ alternative_flags actEmptyFlags = ""
    ∧ all_examples [] fmtParser [actEmptyFlags] []
        = example_with_help [] fmtParser actEmptyFlags [] :=
  ⟨(spec_c10_empty_option_strings [] fmtParser actEmptyFlags [] rfl).1,
   (spec_c10_empty_option_strings [] fmtParser actEmptyFlags [] rfl).2.1,
   (spec_c10_empty_option_strings [] fmtParser actEmptyFlags [] rfl).2.2
     (by decide)⟩

/-- C4: split_args splits its input into physical lines, drops every
line that is empty or whose first non-whitespace character is the
comment mark, shell-tokenises each remaining line and flattens the
tokens in order: the concrete scenario returns exactly
["--name", "foo"]; a document rendered by all_examples whose active
lines carry the tokens --name myproj --license MIT parses back to
exactly that token sequence in order; and inserting a blank or comment
physical line leaves the parsed arguments unchanged. -/
theorem spec_c4_split_args :
    split_args "  # comment\n --name foo \n\n" = Except.ok ["--name", "foo"]
    ∧ split_args (all_examples [] fmtParser [actName, actLicense] optsRoundtrip)
        = Except.ok ["--name", "myproj", "--license", "MIT"]
    ∧ (∀ line text : String,
        (∀ c ∈ line.toList, c ≠ '\n' ∧ c ≠ '\r') →
        (pyStrip line = "" ∨ (pyStrip line).toList.head? = some '#') →
        split_args (line ++ "\n" ++ text) = split_args text) :=
  ⟨rfl, rfl, split_args_insert_comment⟩

/-- C4, witness: inserting a comment line in front of an active line
leaves the parsed arguments unchanged. -/
theorem spec_c4_witness :
    split_args ("# note" ++ "\n" ++ " --name foo") = split_args " --name foo" :=
  spec_c4_split_args.2.2 "# note" " --name foo" (by decide) (by decide)

/-- C5: when every line of a document produced by all_examples is blank
or commented (its first non-whitespace character is the comment mark),
split_args yields the empty argument list. -/
theorem spec_c5_commented_document_roundtrip (exts : List Ext)
    (parser : Parser) (actions : List Action) (opts : Opts)
    (h : ∀ l ∈ pySplitlines (all_examples exts parser actions opts),
        pyStrip l = "" ∨ (pyStrip l).toList.head? = some '#') :
    split_args (all_examples exts parser actions opts) = Except.ok [] := by
  unfold split_args
  rw [kept_lines_eq_nil h]
  rfl

/-- C5, witness: the fully commented document rendered for the inactive
verbosity descriptor parses to the empty argument list. -/
theorem spec_c5_witness :
    split_args (all_examples [] fmtParser [actVerbose] []) = Except.ok [] :=
  spec_c5_commented_document_roundtrip [] fmtParser [actVerbose] [] (by decide)

/-- C6: the static ignored entries contain "--help" and "--version";
a descriptor whose canonical spelling is in the ignored set contributes
nothing to the document; and every other descriptor contributes exactly
its one example block, the blocks being joined by three line breaks
(two blank lines). -/
theorem spec_c6_document_blocks (exts : List Ext) (parser : Parser)
    (a : Action) (actions : List Action) (opts : Opts) :
    ("--help" ∈ configSet exts "ignore"
      ∧ "--version" ∈ configSet exts "ignore")
    ∧ (long_option a ∈ configSet exts "ignore" →
        all_examples exts parser (a :: actions) opts
          = all_examples exts parser actions opts)
    ∧ (long_option a ∉ configSet exts "ignore" →
        all_examples exts parser (a :: actions) opts
          = (if example_with_help exts parser a opts = "" then
               all_examples exts parser actions opts
             else if all_examples exts parser actions opts = "" then
               example_with_help exts parser a opts
             else example_with_help exts parser a opts
                  ++ (osLinesep ++ osLinesep ++ osLinesep)
                  ++ all_examples exts parser actions opts)) := by
  refine ⟨⟨?_, ?_⟩, ?_, ?_⟩
  · rw [mem_configSet]
    exact Or.inl (by decide)
  · rw [mem_configSet]
    exact Or.inl (by decide)
  · intro h
    unfold all_examples
    rw [List.filter_cons_of_neg (by simp [h])]
  · intro h
    unfold all_examples
    rw [List.filter_cons_of_pos (by simp [h]), List.map_cons, join_block_cons]

/-- C6, witness: the ignored help descriptor contributes nothing, and
the license descriptor contributes exactly its block. -/
theorem spec_c6_witness :
    all_examples [] fmtParser [actHelp, actLicense] optsRoundtrip
      = all_examples [] fmtParser [actLicense] optsRoundtrip
    ∧ all_examples [] fmtParser [actLicense] optsRoundtrip
      = (if example_with_help [] fmtParser actLicense optsRoundtrip = "" then
           all_examples [] fmtParser [] optsRoundtrip
         else if all_examples [] fmtParser [] optsRoundtrip = "" then
           example_with_help [] fmtParser actLicense optsRoundtrip
         else example_with_help [] fmtParser actLicense optsRoundtrip
              ++ (osLinesep ++ osLinesep ++ osLinesep)
              ++ all_examples [] fmtParser [] optsRoundtrip) :=
  ⟨(spec_c6_document_blocks [] fmtParser actHelp [actLicense]
      optsRoundtrip).2.1 (by decide),
   (spec_c6_document_blocks [] fmtParser actLicense [] optsRoundtrip).2.2
      (by decide)⟩

/-- C8: if any kept (non-blank, non-comment) line of the edited text
fails shell tokenisation, split_args is an error and no partial
argument list is returned; in particular an unbalanced quote yields the
error "No closing quotation". -/
theorem spec_c8_malformed_is_fatal (text : String)
    (h : ∃ l ∈ kept_lines text, isErr (shlex_split l) = true) :
    isErr (split_args text) = true
    ∧ split_args " --name 'unclosed\n" = Except.error "No closing quotation"
    ∧ shlex_split "--name 'unclosed" = Except.error "No closing quotation" := by
  refine ⟨?_, rfl, rfl⟩
  unfold split_args
  rw [isErr_map]
  exact tokenize_lines_isErr h

/-- C8, witness: the text with an unbalanced quote on its active line
makes split_args fail. -/
theorem spec_c8_witness :
    isErr (split_args " --name 'unclosed\n") = true :=
  (spec_c8_malformed_is_fatal " --name 'unclosed\n"
    ⟨"--name 'unclosed", by decide, by decide⟩).1

end Pyscaffold
